import Mathlib

/-!
# Verification of the aurelia-configuration environment/lookup engine

Shallow embedding of `src/aurelia-configuration.ts` (class `Configuration`).
JavaScript values stored in the configuration tree are modelled by the
inductive `ConfigValue`; the mutable fields of the `Configuration` instance
are modelled by the record `ConfigState`, and each method becomes a pure
function on that record.  JavaScript truthiness is modelled explicitly by
`truthy`.  Objects are modelled as insertion-ordered association lists,
matching the insertion-order iteration of `for..in` over string keys and
the in-place-update/append semantics of JS property assignment.

The host-pattern matching of `check()` calls
`hostname.search('(?:^|W)' + host + '(?:$|W)')`: the pattern string is
compiled as a regular expression in which `W` is the *literal* character
`'W'` (not `\W`).  The environment pattern itself is spliced into that
regular expression, so a metacharacter inside it is interpreted by the
regex engine (`'.'` is a wildcard) and an invalid fragment such as `'('`
makes `check()` throw a SyntaxError.  The model covers the regex-literal
case: `hostMatches` decides, for a pattern free of regex metacharacters
(`regexLiteral`), whether it occurs at a position preceded by the start of
the string or a literal `'W'` and followed by the end of the string or a
literal `'W'` — for such patterns this is exactly the program's search.
Every theorem that quantifies over patterns carries an explicit
`regexLiteral` hypothesis; concrete scenarios use metacharacter-free
patterns only, where model and program coincide.
-/

namespace AureliaConfig

/-- A JavaScript value stored in a configuration tree: a scalar
(string / number / boolean), `null`, or a nested object. Objects are
insertion-ordered association lists. -/
inductive ConfigValue where
  | str : String → ConfigValue
  | num : Int → ConfigValue
  | bool : Bool → ConfigValue
  | null : ConfigValue
  | obj : List (String × ConfigValue) → ConfigValue
  deriving Repr

/-- JavaScript truthiness of a `ConfigValue` (`''`, `0`, `false`, `null`
are falsy; every object, including `{}`, is truthy). -/
def truthy : ConfigValue → Bool
  | .str s => s ≠ ""
  | .num n => n ≠ 0
  | .bool b => b
  | .null => false
  | .obj _ => true

/-- Association-list lookup: `m[key]`, `none` modelling JS `undefined`. -/
def lookupKey : List (String × ConfigValue) → String → Option ConfigValue
  | [], _ => none
  | (k, v) :: rest, key => if k = key then some v else lookupKey rest key

/-- Property access `v[key]` on an arbitrary value; on a non-object the
configuration data model has no properties, so the result is absent. -/
def getProp : ConfigValue → String → Option ConfigValue
  | .obj m, key => lookupKey m key
  | _, _ => none

/-- Truthiness of a possibly-absent property value (`undefined` is falsy). -/
def optTruthy : Option ConfigValue → Bool
  | some v => truthy v
  | none => false

/-- Property assignment `m[key] = v`: updates an existing key in place,
otherwise appends the new key at the end (JS object insertion order). -/
def assocSet : List (String × ConfigValue) → String → ConfigValue → List (String × ConfigValue)
  | [], key, v => [(key, v)]
  | (k, v') :: rest, key, v =>
      if k = key then (key, v) :: rest else (k, v') :: assocSet rest key v

/-- Splitter for `key.split('.')` (single-character separator), written
structurally over the character list so that it matches JS `split` exactly
(`''.split('.') = ['']`, separators at the ends produce empty segments). -/
def splitOnDotAux : List Char → List Char → List String
  | [], acc => [String.mk acc.reverse]
  | c :: cs, acc =>
      if c = '.' then String.mk acc.reverse :: splitOnDotAux cs []
      else splitOnDotAux cs (c :: acc)

/-- `key.split('.')`. -/
def splitOnDot (key : String) : List String :=
  splitOnDotAux key.data []

/-- `key.indexOf('.') !== -1`: the key has at least one `'.'`. -/
def hasDot (key : String) : Bool :=
  key.data.contains '.'

/-- The loop body of `getDictValue`: walk the already-split key segments,
throwing `'Key ' + key + ' not found'` as soon as `currentObject[key]` is
absent or falsy (`if (currentObject[key]) ... else throw`). -/
def getDictValueAux : ConfigValue → List String → Except String ConfigValue
  | cur, [] => .ok cur
  | cur, k :: ks =>
      match getProp cur k with
      | some v => if truthy v then getDictValueAux v ks
                  else .error ("Key " ++ k ++ " not found")
      | none => .error ("Key " ++ k ++ " not found")

/-- `Configuration.getDictValue(baseObject, key)`: split on `'.'` and walk. -/
def getDictValue (baseObject : ConfigValue) (key : String) : Except String ConfigValue :=
  getDictValueAux baseObject (splitOnDot key)

/-- The window snapshot built by the constructor (`WindowInfo`):
`pathName = none` models the field being left `undefined`. -/
structure WindowInfo where
  hostName : String
  port : String
  pathName : Option String := none
  deriving Repr, DecidableEq

/-- The constructor of `Configuration`: copies `hostname` and `port` and
sets `pathName` only when `pathname` is truthy and longer than one
character (`if (pathname && pathname.length > 1)`). -/
def mkWindowInfo (hostname port pathname : String) : WindowInfo :=
  { hostName := hostname, port := port,
    pathName := if pathname ≠ "" ∧ pathname.length > 1 then some pathname else none }

/-- The mutable fields of a `Configuration` instance, with the
constructor's defaults. -/
structure ConfigState where
  environment : String := "default"
  environments : Option (List (String × List String)) := none
  directory : String := "config"
  configFile : String := "config.json"
  cascadeMode : Bool := true
  basePathMode : Bool := false
  windowInfo : WindowInfo
  configObject : List (String × ConfigValue) := []
  configMergeObject : Option (List (String × ConfigValue)) := some []
  deriving Repr

/-- The candidate string `check()` builds before matching: `hostName`,
`':' + port` when `port != ''`, and — whenever `basePathMode` is on —
`+= pathName`, which appends the literal string `"undefined"` when the
constructor left `pathName` unset. -/
def composedHost (w : WindowInfo) (basePathMode : Bool) : String :=
  let h := w.hostName
  let h := if w.port ≠ "" then h ++ ":" ++ w.port else h
  if basePathMode then
    h ++ (match w.pathName with | some p => p | none => "undefined")
  else h

/-- `pat` matches a prefix of `rest` and the next character is the end of
the string (`$`) or the literal character `'W'`. -/
def tailMatch : List Char → List Char → Bool
  | [], [] => true
  | [], c :: _ => c = 'W'
  | _ :: _, [] => false
  | p :: ps, c :: cs => p = c && tailMatch ps cs

/-- Scan for a match of `pat` that starts right after a literal `'W'`. -/
def searchAfterW : List Char → List Char → Bool
  | [], _ => false
  | c :: rest, pat => (c = 'W' && tailMatch pat rest) || searchAfterW rest pat

/-- The JavaScript regex metacharacters: a pattern containing none of
them is matched by the regex engine exactly as its literal text (and can
never make the regex constructor throw). -/
def regexLiteral (pat : String) : Bool :=
  pat.data.all fun c =>
    !(c ∈ ['\\', '^', '$', '.', '|', '?', '*', '+', '(', ')', '[', ']', '{', '}'])

/-- `hostname.search('(?:^|W)' + pat + '(?:$|W)') !== -1` for a pattern
`pat` that is regex-literal (`regexLiteral pat = true`): either the
pattern matches at the start of the string, or somewhere after a literal
`'W'`.  For a pattern containing regex metacharacters the program
interprets it as a regex fragment (e.g. `'.'` matches any character, an
invalid fragment throws), which this function does not model — theorems
quantifying over patterns therefore assume `regexLiteral`. -/
def hostMatches (hostname pat : String) : Bool :=
  tailMatch pat.data hostname.data || searchAfterW hostname.data pat.data

/-- The nested `for..in` / `for..of` loops of `check()`: the first
environment (in entry order) one of whose patterns matches wins. -/
def checkLoop (hostname : String) : List (String × List String) → Option String
  | [] => none
  | (env, pats) :: rest =>
      if pats.any (fun pat => hostMatches hostname pat) then some env
      else checkLoop hostname rest

/-- `Configuration.check()`.  The returned `Option Bool` models the JS
return value: `none` is the bare `return;` (i.e. `undefined`) taken when
`environments` is null, `some true` / `some false` are the boolean
returns. On a match the `environment` setter is assigned. -/
def check (s : ConfigState) : ConfigState × Option Bool :=
  let hostname := composedHost s.windowInfo s.basePathMode
  match s.environments with
  | none => (s, none)
  | some envs =>
      match checkLoop hostname envs with
      | some env => ({ s with environment := env }, some true)
      | none => (s, some false)

/-- `environmentEnabled`: the active environment is named, i.e. not
`'default'` and not empty/falsy. -/
def environmentEnabled (s : ConfigState) : Bool :=
  !(s.environment == "default" || s.environment == "")

/-- `environmentExists`: `this.#environment in this.configObject`. -/
def environmentExists (s : ConfigState) : Bool :=
  (lookupKey s.configObject s.environment).isSome

/-- `Configuration.get(key, defaultValue = null)`. -/
def get (s : ConfigState) (key : String) (defaultValue : ConfigValue := .null) : ConfigValue :=
  if !hasDot key then
    if !environmentEnabled s then
      -- default environment: `configObject[key] ? configObject[key] : defaultValue`
      match lookupKey s.configObject key with
      | some v => if truthy v then v else defaultValue
      | none => defaultValue
    else
      -- named environment: environment section first, then cascade
      let envVal := (lookupKey s.configObject s.environment).bind (fun sec => getProp sec key)
      if environmentExists s && optTruthy envVal then
        envVal.getD .null
      else
        let topVal := lookupKey s.configObject key
        if s.cascadeMode && optTruthy topVal then topVal.getD .null
        else defaultValue
  else
    if environmentEnabled s then
      if environmentExists s then
        match getDictValue ((lookupKey s.configObject s.environment).getD .null) key with
        | .ok v => v
        | .error _ =>
            if s.cascadeMode then
              match getDictValue (.obj s.configObject) key with
              | .ok v => v
              | .error _ => defaultValue
            else defaultValue
      else defaultValue
    else
      match getDictValue (.obj s.configObject) key with
      | .ok v => v
      | .error _ => defaultValue

/-- `Configuration.set(key, val)`.  A dotted key uses only `splitKey[0]`
and `splitKey[1]`; `configObject[parent]` is created as `{}` only when it
is strictly `undefined`.  When `configObject[parent]` holds a non-object
value, the assignment `configObject[parent][child] = val` throws a
`TypeError` in strict mode, modelled as `none`. -/
def setKey (s : ConfigState) (key : String) (val : ConfigValue) : Option ConfigState :=
  if !hasDot key then
    some { s with configObject := assocSet s.configObject key val }
  else
    let splitKey := splitOnDot key
    let parent := splitKey.headD ""
    let child := (splitKey.drop 1).headD ""
    match lookupKey s.configObject parent with
    | none =>
        some { s with configObject := assocSet s.configObject parent (.obj [(child, val)]) }
    | some (.obj m) =>
        some { s with configObject := assocSet s.configObject parent (.obj (assocSet m child val)) }
    | some _ => none

/-- Modelled from the spec: the repository imports `deepExtend` from
`./deep-extend`, which is not among the provided sources.  Following
spec §4.5 (DeepMerge): for every key of `override`, in order, when both
sides hold nested objects they are merged recursively, otherwise the
override value replaces the base value wholesale; keys only in `base`
are kept, in base order, and override-only keys are appended in override
order. -/
def deepExtend : List (String × ConfigValue) → List (String × ConfigValue) →
    List (String × ConfigValue)
  | base, [] => base
  | base, (k, v) :: rest =>
      let base' :=
        match lookupKey base k, v with
        | some (.obj bm), .obj om => assocSet base k (.obj (deepExtend bm om))
        | some _, _ => assocSet base k v
        | none, _ => base ++ [(k, v)]
      deepExtend base' rest
termination_by base o => sizeOf o
decreasing_by all_goals (simp_wf <;> omega)

/-- `Configuration.setAll(obj)`: wholesale replacement. -/
def setAll (s : ConfigState) (o : List (String × ConfigValue)) : ConfigState :=
  { s with configObject := o }

/-- `Configuration.merge(obj)`: immediate deep merge into `configObject`. -/
def merge (s : ConfigState) (o : List (String × ConfigValue)) : ConfigState :=
  { s with configObject := deepExtend s.configObject o }

/-- `Configuration.lazyMerge(obj)`: staged merge into `_configMergeObject`
(`this._configMergeObject || {}` treats the null staging object as `{}`). -/
def lazyMerge (s : ConfigState) (o : List (String × ConfigValue)) : ConfigState :=
  { s with configMergeObject := some (deepExtend (s.configMergeObject.getD []) o) }

/-- The synchronous completion sequence of `loadConfig()` once the fetch
has resolved with `data`: `setAll(data)`, then, when the staging object is
truthy, `merge` it and clear it to null. -/
def loadConfigWith (s : ConfigState) (data : List (String × ConfigValue)) : ConfigState :=
  let s1 := setAll s data
  match s1.configMergeObject with
  | some m => { merge s1 m with configMergeObject := none }
  | none => s1

/-- The value reached after successfully traversing a list of segments,
each step requiring the property to be present and truthy. -/
def walkTruthy : ConfigValue → List String → Option ConfigValue
  | cur, [] => some cur
  | cur, k :: ks =>
      match getProp cur k with
      | some v => if truthy v then walkTruthy v ks else none
      | none => none

/-!  ## Helper lemmas  -/

theorem lookupKey_assocSet (m : List (String × ConfigValue)) (k k2 : String)
    (v : ConfigValue) :
    lookupKey (assocSet m k v) k2 = if k2 = k then some v else lookupKey m k2 := by
  induction m with
  | nil => simp [assocSet, lookupKey, eq_comm]
  | cons hd tl ih =>
      obtain ⟨k1, v1⟩ := hd
      by_cases h1 : k1 = k
      · subst h1
        by_cases h2 : k2 = k1
        · simp [assocSet, lookupKey, h2]
        · simp [assocSet, lookupKey, h2, Ne.symm h2]
      · by_cases h2 : k1 = k2
        · subst h2
          simp [assocSet, lookupKey, h1]
        · simp [assocSet, lookupKey, h1, h2, ih]

theorem checkLoop_eq_find (hostname : String) (envs : List (String × List String)) :
    checkLoop hostname envs =
      (envs.find? (fun e => e.2.any fun pat => hostMatches hostname pat)).map Prod.fst := by
  induction envs with
  | nil => rfl
  | cons hd tl ih =>
      obtain ⟨env, pats⟩ := hd
      by_cases h : pats.any (fun pat => hostMatches hostname pat) = true <;>
        simp [checkLoop, List.find?, h, ih]

/-!  ## Claim theorems  -/

/-- Scenario state of claim C1 (and of the repository test
`works with the same url but different port`). -/
def portScenarioState : ConfigState :=
  { windowInfo := { hostName := "localhost", port := "9876" },
    environments := some [("dev1", ["localhost"]), ("dev2", ["localhost:9876"])],
    configObject := [("test", .str "fallback"),
                     ("dev1", .obj [("test", .str "dev1")]),
                     ("dev2", .obj [("test", .str "dev2")])] }

/-- C1: with environments `{dev1:['localhost'], dev2:['localhost:9876']}`,
host `localhost:9876` and config
`{test:'fallback', dev1:{test:'dev1'}, dev2:{test:'dev2'}}`, `check()`
succeeds selecting `dev2` and `get('test')` then returns `'dev2'`. -/
theorem check_then_get_port_scenario :
    (check portScenarioState).2 = some true
    ∧ (check portScenarioState).1.environment = "dev2"
    ∧ get (check portScenarioState).1 "test" .null = .str "dev2" :=
  ⟨rfl, rfl, rfl⟩

/-- State whose composed host `localhost:9876` contains the single listed
pattern `localhost` as a substring. -/
def substringScenarioState : ConfigState :=
  { windowInfo := { hostName := "localhost", port := "9876" },
    environments := some [("dev1", ["localhost"])] }

/-- C2 counterexample: the pattern `localhost` occurs as a substring of
the composed host `localhost:9876`, yet `check()` selects no environment
and returns false — selection is not substring containment. -/
theorem check_substring_match_counterexample :
    ("localhost".data <:+: (composedHost substringScenarioState.windowInfo
        substringScenarioState.basePathMode).data)
    ∧ check substringScenarioState = (substringScenarioState, some false) :=
  ⟨by decide, rfl⟩

/-- C2 (amended): with a non-null environment map all of whose patterns
are free of regex metacharacters (so each denotes itself literally inside
the compiled regex — patterns with metacharacters are regex fragments and
an invalid one makes the program throw), `check()` selects an environment
exactly when some listed pattern matches the composed host under the
boundary rule of `(?:^|W)pat(?:$|W)` — the pattern occurs at a position
preceded by the start of the string or a literal `'W'` and followed by
the end of the string or a literal `'W'` — and the first environment in
entry order (then pattern-list order) with a matching pattern is
selected, returning true and stopping the search. -/
theorem check_selects_first_boundary_match (s : ConfigState)
    (envs : List (String × List String)) (h : s.environments = some envs)
    (_hlit : ∀ e ∈ envs, ∀ pat ∈ e.2, regexLiteral pat = true) :
    ((check s).2 = some true ↔
      ∃ e ∈ envs, ∃ pat ∈ e.2,
        hostMatches (composedHost s.windowInfo s.basePathMode) pat = true)
    ∧ (∀ e, envs.find? (fun e => e.2.any fun pat =>
          hostMatches (composedHost s.windowInfo s.basePathMode) pat) = some e →
        check s = ({ s with environment := e.1 }, some true))
    ∧ (envs.find? (fun e => e.2.any fun pat =>
          hostMatches (composedHost s.windowInfo s.basePathMode) pat) = none →
        check s = (s, some false)) := by
  refine ⟨?_, ?_, ?_⟩
  · rw [show ((check s).2 = some true ↔ (checkLoop (composedHost s.windowInfo s.basePathMode)
        envs).isSome) from ?_]
    · rw [checkLoop_eq_find]
      simp [List.find?_isSome, List.any_eq_true]
    · simp only [check, h]
      cases checkLoop (composedHost s.windowInfo s.basePathMode) envs <;> simp
  · intro e hfind
    simp [check, h, checkLoop_eq_find, hfind]
  · intro hfind
    simp [check, h, checkLoop_eq_find, hfind]

/-- Concrete instantiation of `check_selects_first_boundary_match`. -/
def firstMatchScenarioState : ConfigState :=
  { windowInfo := { hostName := "localhost", port := "9876" },
    environments := some [("dev1", ["localhost"]), ("dev2", ["localhost:9876"])] }

/-- C2 witness: at the concrete two-environment map, the first environment
whose pattern matches under the boundary rule (`dev2`) is selected. -/
theorem check_selects_first_boundary_match_witness :
    check firstMatchScenarioState =
      ({ firstMatchScenarioState with environment := "dev2" }, some true) :=
  (check_selects_first_boundary_match firstMatchScenarioState
    [("dev1", ["localhost"]), ("dev2", ["localhost:9876"])] rfl (by decide)).2.1
    ("dev2", ["localhost:9876"]) (by decide)

/-- State with a null (unset) environment map. -/
def nullEnvironmentsState : ConfigState :=
  { windowInfo := { hostName := "localhost", port := "" } }

/-- C6 counterexample: with `environments` null, `check()` takes the bare
`return;` — it returns `undefined` (modelled `none`), not `false`. -/
theorem check_null_environments_counterexample :
    check nullEnvironmentsState = (nullEnvironmentsState, none)
    ∧ (check nullEnvironmentsState).2 ≠ some false :=
  ⟨rfl, by decide⟩

/-- C6 (amended): when the environment map is non-null, all of its
patterns are free of regex metacharacters (patterns with metacharacters
are regex fragments and an invalid one makes the program throw) and no
pattern matches the composed host string under the boundary rule,
`check()` leaves the whole state (in particular the active environment)
unchanged and returns false; when `environments` is null/unset, `check()`
is a no-op on state that immediately returns `undefined` (modelled
`none`, a falsy value that is not `false`). -/
theorem check_no_match_is_noop (s : ConfigState) :
    (s.environments = none → check s = (s, none))
    ∧ (∀ envs, s.environments = some envs →
        (∀ e ∈ envs, ∀ pat ∈ e.2, regexLiteral pat = true) →
        (∀ e ∈ envs, ∀ pat ∈ e.2,
          hostMatches (composedHost s.windowInfo s.basePathMode) pat = false) →
        check s = (s, some false)) := by
  constructor
  · intro h
    simp [check, h]
  · intro envs h _hlit hnone
    have hfind : envs.find? (fun e => e.2.any fun pat =>
        hostMatches (composedHost s.windowInfo s.basePathMode) pat) = none := by
      rw [List.find?_eq_none]
      intro e he
      simpa [List.any_eq_true] using hnone e he
    simp [check, h, checkLoop_eq_find, hfind]

/-- C6 witness: a concrete state where the single pattern matches nothing:
`check` returns false and the state is untouched. -/
theorem check_no_match_is_noop_witness :
    check substringScenarioState = (substringScenarioState, some false) :=
  (check_no_match_is_noop substringScenarioState).2 [("dev1", ["localhost"])] rfl
    (by decide) (by decide)

/-- The candidate-string composition as claim C7 states it: the path part
is appended only when `basePathMode` is true *and* `pathName` is set. -/
def claimComposedHost (w : WindowInfo) (basePathMode : Bool) : String :=
  w.hostName ++ (if w.port ≠ "" then ":" ++ w.port else "")
    ++ (if basePathMode then
          (match w.pathName with | some p => p | none => "")
        else "")

/-- The candidate-string composition as amended: whenever `basePathMode`
is true the path part is appended, being `pathName` when set and the
literal string `"undefined"` when unset. -/
def amendedComposedHost (w : WindowInfo) (basePathMode : Bool) : String :=
  w.hostName ++ (if w.port ≠ "" then ":" ++ w.port else "")
    ++ (if basePathMode then
          (match w.pathName with | some p => p | none => "undefined")
        else "")

/-- A `Configuration` built on the root path `'/'` with base-path mode on,
whose single pattern is the string `check()` actually composes. -/
def rootPathState : ConfigState :=
  { windowInfo := mkWindowInfo "myhost" "" "/", basePathMode := true,
    environments := some [("e1", ["myhostundefined"])] }

/-- C7 counterexample: on host `myhost` with no port, root path `'/'`
(so `pathName` is unset) and base-path mode on, the claim's composition
yields `"myhost"`, but `check()` composes `"myhostundefined"`: the pattern
`myhostundefined` — not a substring of `"myhost"` — is matched. -/
theorem composed_host_counterexample :
    claimComposedHost (mkWindowInfo "myhost" "" "/") true = "myhost"
    ∧ composedHost (mkWindowInfo "myhost" "" "/") true = "myhostundefined"
    ∧ check rootPathState = ({ rootPathState with environment := "e1" }, some true)
    ∧ ¬("myhostundefined".data <:+: "myhost".data) :=
  ⟨by decide, by decide, rfl, by decide⟩

/-- C7 (amended): the string `check()` matches patterns against is the
host's `hostName`, then `':' ++ port` when the port is non-empty, then —
whenever `basePathMode` is true — `pathName` when it is set and the
literal string `"undefined"` when it is not; and the constructor sets
`pathName` exactly when the location path has length greater than one
(i.e. is non-empty and not the bare root `'/'`). -/
theorem composed_host_amended (w : WindowInfo) (b : Bool)
    (hostname port pathname : String) :
    composedHost w b = amendedComposedHost w b
    ∧ (mkWindowInfo hostname port pathname).pathName =
        (if pathname.length > 1 then some pathname else none) := by
  constructor
  · unfold composedHost amendedComposedHost
    by_cases hp : w.port ≠ "" <;> cases b <;>
      simp [hp, String.append_empty, String.append_assoc]
  · unfold mkWindowInfo
    by_cases hlen : pathname.length > 1
    · have hne : pathname ≠ "" := by
        intro he
        rw [he] at hlen
        simp [String.length] at hlen
      simp [hlen, hne]
    · simp [hlen]

theorem getDictValueAux_fails_iff (segs : List String) : ∀ (base : ConfigValue),
    (getDictValueAux base segs).isOk = false ↔
      ∃ pre k post, segs = pre ++ k :: post ∧
        ∃ cur, walkTruthy base pre = some cur ∧ optTruthy (getProp cur k) = false := by
  induction segs with
  | nil =>
      intro base
      constructor
      · intro h
        simp [getDictValueAux, Except.isOk, Except.toBool] at h
      · rintro ⟨pre, k, post, heq, -⟩
        simp at heq
  | cons k ks ih =>
      intro base
      cases hgp : getProp base k with
      | none =>
          constructor
          · intro _
            exact ⟨[], k, ks, rfl, base, rfl, by simp [optTruthy, hgp]⟩
          · intro _
            simp [getDictValueAux, hgp, Except.isOk, Except.toBool]
      | some v =>
          by_cases htr : truthy v = true
          · have hred : getDictValueAux base (k :: ks) = getDictValueAux v ks := by
              simp [getDictValueAux, hgp, htr]
            rw [hred, ih v]
            constructor
            · rintro ⟨pre, k2, post, heq, cur, hw, hf⟩
              exact ⟨k :: pre, k2, post, by rw [heq]; rfl, cur,
                by simp [walkTruthy, hgp, htr, hw], hf⟩
            · rintro ⟨pre, k2, post, heq, cur, hw, hf⟩
              cases pre with
              | nil =>
                  simp at heq
                  obtain ⟨h1, h2⟩ := heq
                  subst h1
                  simp [walkTruthy] at hw
                  subst hw
                  simp [optTruthy, hgp, htr] at hf
              | cons p pre2 =>
                  simp at heq
                  obtain ⟨h1, h2⟩ := heq
                  subst h1
                  refine ⟨pre2, k2, post, h2, cur, ?_, hf⟩
                  simpa [walkTruthy, hgp, htr] using hw
          · constructor
            · intro _
              exact ⟨[], k, ks, rfl, base, rfl, by simp [optTruthy, hgp, htr]⟩
            · intro _
              simp [getDictValueAux, hgp, htr, Except.isOk, Except.toBool]

/-- C3: `getDictValue` fails exactly when, during the left-to-right
traversal of the `'.'`-separated segments, some segment is absent or holds
a falsy value at the object reached by the (present-and-truthy) segments
before it; and both call sites of `getDictValue` inside the dotted branch
of `get` convert the failure into the cascade lookup or `defaultValue`,
so `get` is a total function that never propagates the error. -/
theorem getDictValue_keyNotFound_contract :
    (∀ (base : ConfigValue) (key : String),
        (getDictValue base key).isOk = false ↔
          ∃ pre k post, splitOnDot key = pre ++ k :: post ∧
            ∃ cur, walkTruthy base pre = some cur ∧ optTruthy (getProp cur k) = false)
    ∧ (∀ (s : ConfigState) (key : String) (d : ConfigValue),
        hasDot key = true → environmentEnabled s = true → environmentExists s = true →
        get s key d =
          (match getDictValue ((lookupKey s.configObject s.environment).getD .null) key with
           | .ok v => v
           | .error _ =>
               if s.cascadeMode then
                 (getDictValue (.obj s.configObject) key).toOption.getD d
               else d))
    ∧ (∀ (s : ConfigState) (key : String) (d : ConfigValue),
        hasDot key = true → environmentEnabled s = false →
        get s key d = (getDictValue (.obj s.configObject) key).toOption.getD d) := by
  refine ⟨fun base key => getDictValueAux_fails_iff (splitOnDot key) base, ?_, ?_⟩
  · intro s key d hdot henv hex
    simp only [get, hdot, henv, hex, Bool.not_true, Bool.false_eq_true, if_false, if_true]
    cases hgd : getDictValue ((lookupKey s.configObject s.environment).getD .null) key with
    | ok v => rfl
    | error e =>
        cases hc : s.cascadeMode
        · simp
        · cases hgd2 : getDictValue (.obj s.configObject) key <;>
            simp [hgd2, Except.toOption]
  · intro s key d hdot henv
    simp only [get, hdot, henv, Bool.not_true, Bool.false_eq_true, if_false, if_true]
    cases hgd : getDictValue (.obj s.configObject) key <;> simp [Except.toOption]

/-- A named environment whose section is present but empty, with cascade
off and an empty top level. -/
def recoverScenarioState : ConfigState :=
  { windowInfo := { hostName := "localhost", port := "" },
    environment := "dev", cascadeMode := false,
    configObject := [("dev", .obj [])] }

/-- C3 witness: `getDictValue` fails on a missing dotted key, and `get`
converts the failure into the supplied default. -/
theorem getDictValue_keyNotFound_contract_witness :
    (getDictValue (.obj [("dev", .obj [])]) "a.b").isOk = false
    ∧ get recoverScenarioState "a.b" (.str "fb") = .str "fb" := by
  constructor
  · exact (getDictValue_keyNotFound_contract.1 (.obj [("dev", .obj [])]) "a.b").2
      ⟨[], "a", ["b"], rfl, .obj [("dev", .obj [])], rfl, rfl⟩
  · exact (getDictValue_keyNotFound_contract.2.1 recoverScenarioState "a.b" (.str "fb")
      rfl rfl rfl).trans (by rfl)

/-- C4: with the default environment active and a dot-free key, `get`
returns `configObject[key]` when that value is truthy and `defaultValue`
otherwise — in particular every falsy stored value (`0`, `''`, `false`,
`null`) is replaced by the default. -/
theorem get_default_environment_truthy_or_default (s : ConfigState) (key : String)
    (d : ConfigValue) (hdot : hasDot key = false)
    (henv : environmentEnabled s = false) :
    get s key d =
      (match lookupKey s.configObject key with
       | some v => if truthy v then v else d
       | none => d)
    ∧ (∀ v, lookupKey s.configObject key = some v → truthy v = false →
        get s key d = d) := by
  have h1 : get s key d =
      (match lookupKey s.configObject key with
       | some v => if truthy v then v else d
       | none => d) := by
    simp only [get, hdot, henv, Bool.not_false, if_true]
  refine ⟨h1, fun v hv htr => ?_⟩
  rw [h1, hv]
  simp [htr]

/-- The falsy-value scenario: `configObject = {a: 0}`. -/
def falsyTopState : ConfigState :=
  { windowInfo := { hostName := "localhost", port := "" },
    configObject := [("a", .num 0)] }

/-- C4 witness: with `{a: 0}` stored, `get('a', d)` returns `d`, not `0`. -/
theorem get_default_environment_truthy_or_default_witness :
    get falsyTopState "a" (.str "d") = .str "d" :=
  (get_default_environment_truthy_or_default falsyTopState "a" (.str "d") rfl rfl).2
    (.num 0) rfl rfl

/-- C5: for a dotted key, when a named environment is active but its
section is not a top-level key of `configObject`, `get` returns the
default with no lookup at all — cascade mode notwithstanding. -/
theorem get_dotted_env_without_section (s : ConfigState) (key : String)
    (d : ConfigValue) (hdot : hasDot key = true)
    (henv : environmentEnabled s = true) (hex : environmentExists s = false) :
    get s key d = d := by
  simp [get, hdot, henv, hex]

/-- Named environment `dev2` absent from a config that has the dotted key
at top level, with cascade mode on. -/
def missingSectionState : ConfigState :=
  { windowInfo := { hostName := "localhost", port := "" },
    environment := "dev2", cascadeMode := true,
    configObject := [("a", .obj [("b", .str "top")])] }

/-- C5 witness: the key exists at top level and cascade is enabled, yet
the missing `dev2` section sends `get` straight to the default. -/
theorem get_dotted_env_without_section_witness :
    get missingSectionState "a.b" (.str "fallback") = .str "fallback" :=
  get_dotted_env_without_section missingSectionState "a.b" (.str "fallback") rfl rfl rfl

/-- C8: for a dotted key, when the active environment's section exists but
the lookup under it fails and cascade mode is disabled, `get` returns the
default without consulting the top-level `configObject`. -/
theorem get_dotted_env_no_cascade (s : ConfigState) (key : String) (d : ConfigValue)
    (hdot : hasDot key = true) (henv : environmentEnabled s = true)
    (hex : environmentExists s = true) (hcas : s.cascadeMode = false)
    (hfail : (getDictValue ((lookupKey s.configObject s.environment).getD .null)
        key).isOk = false) :
    get s key d = d := by
  simp only [get, hdot, henv, hex, Bool.not_true, Bool.false_eq_true, if_false, if_true]
  cases hgd : getDictValue ((lookupKey s.configObject s.environment).getD .null) key with
  | ok v => rw [hgd] at hfail; simp [Except.isOk, Except.toBool] at hfail
  | error e => simp [hcas]

/-- Environment `dev2` present with `nested1.nested12` but without `a.b`,
which only the top level has; cascade mode disabled. -/
def noCascadeState : ConfigState :=
  { windowInfo := { hostName := "localhost", port := "" },
    environment := "dev2", cascadeMode := false,
    configObject := [("a", .obj [("b", .str "top")]),
                     ("dev2", .obj [("nested1", .obj [("nested12", .str "n12")])])] }

/-- C8 witness: with cascade off, the key present only at top level is not
found and the default is returned. -/
theorem get_dotted_env_no_cascade_witness :
    get noCascadeState "a.b" (.str "fallback") = .str "fallback" :=
  get_dotted_env_no_cascade noCascadeState "a.b" (.str "fallback") rfl rfl rfl rfl rfl

/-- C9: `lazyMerge` only replaces the staged merge object — deep-merging
the argument over the previous staged object (`{}` when it was null) —
leaving `configObject` and all other fields unchanged; `configObject` is
affected only by the load-completion sequence, which merges the staged
object strictly after `setAll` of the fetched data and clears it to null. -/
theorem lazyMerge_stages_only (s : ConfigState) (o data : List (String × ConfigValue)) :
    lazyMerge s o =
      { s with configMergeObject := some (deepExtend (s.configMergeObject.getD []) o) }
    ∧ (lazyMerge s o).configObject = s.configObject
    ∧ (lazyMerge s o).environment = s.environment
    ∧ (lazyMerge s o).cascadeMode = s.cascadeMode
    ∧ (lazyMerge s o).environments = s.environments
    ∧ loadConfigWith s data =
        (match s.configMergeObject with
         | some m => { s with configObject := deepExtend data m, configMergeObject := none }
         | none => { s with configObject := data }) := by
  refine ⟨rfl, rfl, rfl, rfl, rfl, ?_⟩
  cases hm : s.configMergeObject <;> simp [loadConfigWith, setAll, merge, hm]

theorem headD_of_take_two : ∀ (l1 l2 : List String), l1.take 2 = l2.take 2 →
    l1.headD "" = l2.headD "" ∧ (l1.drop 1).headD "" = (l2.drop 1).headD ""
  | [], [], _ => ⟨rfl, rfl⟩
  | [], _ :: _, h => by simp at h
  | _ :: _, [], h => by simp at h
  | [_], [_], h => by
      simp at h
      simp [h]
  | [_], _ :: _ :: _, h => by simp at h
  | _ :: _ :: _, [_], h => by simp at h
  | a :: b :: _, c :: d :: _, h => by
      simp at h
      simp [h.1, h.2]

/-- C10: for a dotted key, `set` consults only the first two `'.'`-split
segments — any key with the same first two segments produces the same
state — writing the value at `configObject[first][second]`,
auto-creating `configObject[first]` as `{}` only when it is undefined,
and leaving every other top-level key unchanged. -/
theorem set_uses_only_first_two_segments (s : ConfigState) (key : String)
    (val : ConfigValue) (hdot : hasDot key = true) :
    (∀ key2, hasDot key2 = true →
        (splitOnDot key2).take 2 = (splitOnDot key).take 2 →
        setKey s key2 val = setKey s key val)
    ∧ (lookupKey s.configObject ((splitOnDot key).headD "") = none →
        setKey s key val =
          some { s with
                 configObject := assocSet s.configObject ((splitOnDot key).headD "")
                                   (.obj [(((splitOnDot key).drop 1).headD "", val)]) })
    ∧ (∀ m, lookupKey s.configObject ((splitOnDot key).headD "") = some (.obj m) →
        setKey s key val =
          some { s with
                 configObject := assocSet s.configObject ((splitOnDot key).headD "")
                                   (.obj (assocSet m (((splitOnDot key).drop 1).headD "") val)) })
    ∧ (∀ s2, setKey s key val = some s2 →
        ∀ k2, k2 ≠ (splitOnDot key).headD "" →
          lookupKey s2.configObject k2 = lookupKey s.configObject k2) := by
  refine ⟨?_, ?_, ?_, ?_⟩
  · intro key2 h2 htake
    obtain ⟨hh, hd⟩ := headD_of_take_two _ _ htake
    simp only [setKey, hdot, h2, Bool.not_true, Bool.false_eq_true, if_false]
    rw [hh, hd]
  · intro h
    simp only [setKey, hdot, Bool.not_true, Bool.false_eq_true, if_false, h]
  · intro m hm
    simp only [setKey, hdot, Bool.not_true, Bool.false_eq_true, if_false, hm]
  · intro s2 hs2 k2 hk2
    simp only [setKey, hdot, Bool.not_true, Bool.false_eq_true, if_false] at hs2
    cases hl : lookupKey s.configObject ((splitOnDot key).headD "") with
    | none =>
        simp only [hl, Option.some.injEq] at hs2
        subst hs2
        simp only [lookupKey_assocSet]
        rw [if_neg hk2]
    | some v =>
        cases v with
        | obj m =>
            simp only [hl, Option.some.injEq] at hs2
            subst hs2
            simp only [lookupKey_assocSet]
            rw [if_neg hk2]
        | str a => simp only [hl] at hs2; exact Option.noConfusion hs2
        | num a => simp only [hl] at hs2; exact Option.noConfusion hs2
        | bool a => simp only [hl] at hs2; exact Option.noConfusion hs2
        | null => simp only [hl] at hs2; exact Option.noConfusion hs2

/-- An otherwise-default state with an empty configuration object. -/
def emptyConfigState : ConfigState :=
  { windowInfo := { hostName := "localhost", port := "" } }

/-- C10 witness: `set('a.b.c', v)` behaves exactly as `set('a.b', v)`,
writing `v` at `configObject['a']['b']` with no deeper nesting. -/
theorem set_uses_only_first_two_segments_witness :
    setKey emptyConfigState "a.b.c" (.str "v") = setKey emptyConfigState "a.b" (.str "v")
    ∧ setKey emptyConfigState "a.b.c" (.str "v") =
        some { emptyConfigState with
                 configObject := [("a", .obj [("b", .str "v")])] } := by
  constructor
  · exact ((set_uses_only_first_two_segments emptyConfigState "a.b.c" (.str "v") rfl).1
      "a.b" rfl rfl).symm
  · exact ((set_uses_only_first_two_segments emptyConfigState "a.b.c" (.str "v") rfl).2.1
      rfl).trans (by rfl)

end AureliaConfig
